import Mathlib

/-!
Shallow embedding of the Pokedex browsing/search controller and the
evolution-chain resolver (src/scripts/api.js, src/scripts/scripts.js,
src/scripts/overlay.js and the unnamed source parts).

Remote fetches are modelled by a `DataSource` of total functions into
`Option`: `none` models a thrown fetch error (non-ok HTTP status or
transport failure), `some` a successfully parsed response.  DOM work
(rendering, modals, buttons) is outside the model; the user-visible
outcome of a UI operation is captured in explicit result types.
-/

/-! ## JavaScript string primitives

The source relies on `String.prototype.trim`, `toLowerCase`,
`includes`, the regexes `/^[a-zA-Z0-9\s-]+$/` and `/^\d+$/`, `parseInt`
and `Array.prototype.findIndex`.  They are re-implemented here over
`List Char` so that every definition is executable and kernel-reducible.
All strings reaching these functions are ASCII (Pokemon names, ids and
user queries), so the ASCII reading of `\s`, `[a-z]` and `toLowerCase`
is faithful. -/

/-- Characters matched by the JavaScript `\s` class (ASCII part:
space, tab, line feed, vertical tab, form feed, carriage return). -/
def jsWhitespaceChar (c : Char) : Bool :=
  c == ' ' || c == '\t' || c == '\n' || c == '\x0b' || c == '\x0c' || c == '\r'

/-- `String.prototype.trim`: drop leading and trailing whitespace. -/
def jsTrim (s : String) : String :=
  String.mk (((s.data.dropWhile jsWhitespaceChar).reverse.dropWhile jsWhitespaceChar).reverse)

/-- ASCII `toLowerCase` on one character. -/
def jsToLowerChar (c : Char) : Char :=
  if 'A' ≤ c && c ≤ 'Z' then Char.ofNat (c.toNat + 32) else c

/-- `String.prototype.toLowerCase` (ASCII). -/
def jsToLower (s : String) : String :=
  String.mk (s.data.map jsToLowerChar)

/-- Whether the first list is an initial segment of the second. -/
def charListHasPfx : List Char → List Char → Bool
  | [], _ => true
  | _ :: _, [] => false
  | a :: as, b :: bs => a == b && charListHasPfx as bs

/-- Whether `pat` occurs contiguously inside `l`. -/
def charListHasSub (pat : List Char) : List Char → Bool
  | [] => pat.isEmpty
  | c :: rest => charListHasPfx pat (c :: rest) || charListHasSub pat rest

/-- `s.includes(pat)`: substring containment. -/
def jsIncludes (s pat : String) : Bool :=
  charListHasSub pat.data s.data

/-- `Array.prototype.findIndex`: index of the first element satisfying
`pred`, and `-1` when no element does. -/
def jsFindIndex {α : Type} (pred : α → Bool) : List α → Int
  | [] => -1
  | x :: rest =>
    if pred x then 0
    else
      let r := jsFindIndex pred rest
      if r < 0 then -1 else r + 1

/-- JavaScript array indexing `l[i]`: `none` models the `undefined`
produced by a negative or past-the-end index. -/
def jsIndex {α : Type} (l : List α) (i : Int) : Option α :=
  if i < 0 then none else l.get? i.toNat

/-! ## Data model -/

/-- A record fetched from the `pokemon/{id}` endpoint, restricted to the
fields the controller inspects.  `hasTypes`, `hasSprites` and `hasStats`
model the JavaScript truthiness of the corresponding fields as tested by
`isValidPokemonData` (an array or object present on the record is truthy
even when empty, so presence is a `Bool`); `id = 0` and `name = ""`
model the falsy values of the other two tested fields. -/
structure PokemonData where
  id : Nat
  name : String
  hasTypes : Bool
  hasSprites : Bool
  hasStats : Bool
deriving DecidableEq

/-- `isValidPokemonData` (unnamed part_003): the record and each of
`id`, `name`, `types`, `sprites`, `stats` must be truthy. -/
def isValidPokemonData (p : PokemonData) : Bool :=
  p.id != 0 && p.name != "" && p.hasTypes && p.hasSprites && p.hasStats

/-- A `pokemon-species/{id}` response: the controller only reads the
optional `evolution_chain.url` reference. -/
structure SpeciesData where
  evolutionChainUrl : Option String
deriving DecidableEq

mutual
/-- One link of the remote evolution-chain tree: the species reference
(already reduced to the numeric id that `extractPokemonIdFromUrl`
produces from `species.url`), the opaque `evolution_details` payload,
and the ordered `evolves_to` children. -/
inductive ChainNode where
  | mk (speciesId : Nat) (evolutionDetails : List Nat) (evolvesTo : ChainList)

/-- Ordered list of child chain links (`evolves_to`). -/
inductive ChainList where
  | nil
  | cons (head : ChainNode) (tail : ChainList)
end

/-- `createEvolutionData` (api.js): one linearized evolution-chain entry. -/
structure EvolutionData where
  pokemon : PokemonData
  evolutionDetails : List Nat
deriving DecidableEq

/-- The remote DataSource consumed by the controller.  `none` models a
thrown fetch error. -/
structure DataSource where
  fetchById : Nat → Option PokemonData
  fetchByName : String → Option PokemonData
  fetchSpecies : Nat → Option SpeciesData
  fetchEvolutionChain : String → Option ChainNode

/-- One issued DataSource call, for tracing which network requests an
operation performs. -/
inductive DSCall where
  | byId (id : Nat)
  | byName (name : String)
deriving DecidableEq

/-- The user-facing failure categories of the search path. -/
inductive SearchError where
  /-- `searchPokemonById` threw `'Pokemon not in current region'` after
  showing the modal that names the valid id range `lo`–`hi`. -/
  | notInRegion (lo hi : Nat)
  /-- a `fetchPokemonById` rejection propagated out of the id path. -/
  | fetchFailed
  /-- `searchPokemonByFuzzyName` threw `'No Pokemon found matching x'`. -/
  | noMatches (term : String)
deriving DecidableEq

/-- Outcome of one `handleSearch` invocation. -/
inductive SearchResult where
  /-- empty query: `resetToDefaultView()` was invoked instead of a search. -/
  | reset
  /-- `isValidSearchTerm` failed: validation modal, no search performed. -/
  | invalid
  /-- `displaySearchResult` was reached with these records. -/
  | found (records : List PokemonData)
  /-- the search threw and `showError` was reached. -/
  | failed (e : SearchError)
deriving DecidableEq

/-! ## Session state (the free-standing globals of scripts.js) -/

/-- The mutable globals of the browsing session: `pokemonList`,
`currentOffset`, `limit`, `isLoading`, `currentPokemonIndex`
(an `Int`, since `findIndex` can store `-1`), `isInSearchMode`,
`selectedRegion`, `regionStart`, `regionEnd`. -/
structure SessionState where
  pokemonList : List PokemonData
  currentOffset : Nat
  limit : Nat
  isLoading : Bool
  currentPokemonIndex : Int
  isInSearchMode : Bool
  selectedRegion : String
  regionStart : Nat
  regionEnd : Nat
deriving DecidableEq

/-- `getRegionPokemonIds` (scripts.js): the ascending ids
`regionStart, …, regionEnd`. -/
def getRegionPokemonIds (s : SessionState) : List Nat :=
  List.range' s.regionStart (s.regionEnd + 1 - s.regionStart)

/-- `isPokemonInCurrentRegion` (scripts.js). -/
def isPokemonInCurrentRegion (s : SessionState) (pokemonId : Nat) : Bool :=
  s.regionStart ≤ pokemonId && pokemonId ≤ s.regionEnd

/-! ## Validation and sanitization (unnamed part_003) -/

/-- The character class `[a-zA-Z0-9\s-]` of the validation regex. -/
def allowedSearchChar (c : Char) : Bool :=
  c.isAlpha || c.isDigit || jsWhitespaceChar c || c == '-'

/-- `isValidSearchTerm`: truthy, nonblank after trimming, and matching
`/^[a-zA-Z0-9\s-]+$/`. -/
def isValidSearchTerm (t : String) : Bool :=
  t != "" && (jsTrim t).length ≥ 1 && t.data.all allowedSearchChar

/-- `isPokemonId`: the trimmed term matches `/^\d+$/`. -/
def isPokemonId (t : String) : Bool :=
  let clean := jsTrim t
  clean != "" && clean.data.all Char.isDigit

/-- `sanitizeSearchTerm`: lower-case, trim, strip characters outside
`[a-zA-Z0-9\s-]`. -/
def sanitizeSearchTerm (t : String) : String :=
  String.mk ((jsTrim (jsToLower t)).data.filter allowedSearchChar)

/-- `sanitizePokemonId`: `parseInt(term.trim(), 10)`; its callers guard
with `isPokemonId`, so the trimmed term is all digits and `parseInt` is
the plain decimal value. -/
def sanitizePokemonId (t : String) : Nat :=
  (jsTrim t).data.foldl (fun a c => a * 10 + (c.toNat - 48)) 0

/-! ## Pagination (`loadPokemon`, api.js / unnamed part_000) -/

/-- The body of the `for` loop of `loadPokemon` over one batch of ids:
fetch each id in order; a record failing `isValidPokemonData` is
dropped; a thrown fetch aborts the loop (second component `false`),
keeping the records already appended. -/
def loadBatch (ds : DataSource) : List Nat → List PokemonData × Bool
  | [] => ([], true)
  | id :: rest =>
    match ds.fetchById id with
    | none => ([], false)
    | some p =>
      let r := loadBatch ds rest
      (if isValidPokemonData p then p :: r.1 else r.1, r.2)

/-- `loadPokemon`: fetch the ids at positions
`[currentOffset, min (currentOffset + limit) total)` of the region id
sequence, append the shape-valid records to `pokemonList`, and on
completion advance `currentOffset` by `limit`; a thrown fetch skips the
offset advance (the `+=` sits after the loop inside `try`) but keeps
the records pushed before the throw.  `isLoading` ends `false` via
`finally`. -/
def loadPokemon (ds : DataSource) (s : SessionState) : SessionState :=
  let ids := getRegionPokemonIds s
  let endIndex := min (s.currentOffset + s.limit) ids.length
  let batchIds := (ids.drop s.currentOffset).take (endIndex - s.currentOffset)
  let r := loadBatch ds batchIds
  if r.2 then
    { s with pokemonList := s.pokemonList ++ r.1
             currentOffset := s.currentOffset + s.limit
             isLoading := false }
  else
    { s with pokemonList := s.pokemonList ++ r.1
             isLoading := false }

/-- `resetToDefaultView` (scripts.js): leave search mode, clear the
grid and `pokemonList`, reset `currentOffset` to 0 and reload the
first page. -/
def resetToDefaultView (ds : DataSource) (s : SessionState) : SessionState :=
  loadPokemon ds
    { s with isInSearchMode := false, currentOffset := 0, pokemonList := [] }

/-! ## Search (api.js / unnamed part_003) -/

/-- `searchPokemonById` (api.js): parse the numeric term; when the id is
outside the active region show the modal naming `regionStart`–`regionEnd`
and throw before any fetch; otherwise fetch by id. -/
def searchPokemonById (ds : DataSource) (s : SessionState) (term : String) :
    Except SearchError PokemonData × List DSCall :=
  let pokemonId := sanitizePokemonId term
  if !(isPokemonInCurrentRegion s pokemonId) then
    (.error (.notInRegion s.regionStart s.regionEnd), [])
  else
    match ds.fetchById pokemonId with
    | some p => (.ok p, [.byId pokemonId])
    | none => (.error .fetchFailed, [.byId pokemonId])

/-- The `for` loop of `searchPokemonByFuzzyName`: fetch every id in
order; keep a record whose lower-cased name contains the lower-cased
term; a thrown fetch is logged and skipped, the scan continues. -/
def fuzzyScan (ds : DataSource) (term : String) : List Nat → List PokemonData × List DSCall
  | [] => ([], [])
  | id :: rest =>
    let r := fuzzyScan ds term rest
    match ds.fetchById id with
    | some p =>
      (if jsIncludes (jsToLower p.name) (jsToLower term) then p :: r.1 else r.1,
       .byId id :: r.2)
    | none => (r.1, .byId id :: r.2)

/-- `searchPokemonByFuzzyName` (api.js): run the scan over `pokemonIds`;
with zero matches throw `'No Pokemon found matching term'`. -/
def searchPokemonByFuzzyName (ds : DataSource) (term : String) (pokemonIds : List Nat) :
    Except SearchError (List PokemonData) × List DSCall :=
  let r := fuzzyScan ds term pokemonIds
  if r.1.length = 0 then (.error (.noMatches term), r.2) else (.ok r.1, r.2)

/-- Per-id outcome of the fuzzy scan, used to state its specification:
`some p` exactly when the fetch succeeded and the name matched. -/
def fuzzyPick (ds : DataSource) (term : String) (id : Nat) : Option PokemonData :=
  match ds.fetchById id with
  | some p => if jsIncludes (jsToLower p.name) (jsToLower term) then some p else none
  | none => none

/-- `searchPokemonByName` (api.js): sanitize; terms of length ≥ 3 go
straight to the fuzzy scan over the region ids; shorter terms first try
the exact-name endpoint (`searchPokemon` lower-cases before sending),
whose in-region success returns a singleton — any failure of that `try`
(fetch rejection, or the out-of-region modal-and-throw) falls back to
the fuzzy scan. -/
def searchPokemonByName (ds : DataSource) (s : SessionState) (term : String) :
    Except SearchError (List PokemonData) × List DSCall :=
  let sanitizedTerm := sanitizeSearchTerm term
  if sanitizedTerm.length ≥ 3 then
    searchPokemonByFuzzyName ds sanitizedTerm (getRegionPokemonIds s)
  else
    match ds.fetchByName (jsToLower sanitizedTerm) with
    | some p =>
      if isPokemonInCurrentRegion s p.id then (.ok [p], [.byName (jsToLower sanitizedTerm)])
      else
        let r := searchPokemonByFuzzyName ds sanitizedTerm (getRegionPokemonIds s)
        (r.1, .byName (jsToLower sanitizedTerm) :: r.2)
    | none =>
      let r := searchPokemonByFuzzyName ds sanitizedTerm (getRegionPokemonIds s)
      (r.1, .byName (jsToLower sanitizedTerm) :: r.2)

/-- `searchPokemonByTerm` (api.js): numeric terms dispatch to the id
path (whose single record `displaySearchResult` later wraps into a
one-element render), everything else to the name path. -/
def searchPokemonByTerm (ds : DataSource) (s : SessionState) (term : String) :
    Except SearchError (List PokemonData) × List DSCall :=
  if isPokemonId term then
    match searchPokemonById ds s term with
    | (.ok p, calls) => (.ok [p], calls)
    | (.error e, calls) => (.error e, calls)
  else
    searchPokemonByName ds s term

/-- `handleSearch` (api.js): trim the input; an empty trimmed query
invokes `resetToDefaultView` (which reloads the session) and returns; an
invalid term shows the validation modal and returns; otherwise the term
is resolved and either displayed or reported through `showError`. -/
def handleSearch (ds : DataSource) (s : SessionState) (input : String) :
    SearchResult × List DSCall :=
  let searchTerm := jsTrim input
  if searchTerm == "" then (.reset, [])
  else if !(isValidSearchTerm searchTerm) then (.invalid, [])
  else
    match searchPokemonByTerm ds s searchTerm with
    | (.ok ps, calls) => (.found ps, calls)
    | (.error e, calls) => (.failed e, calls)

/-! ## Overlay navigation (overlay.js; scripts.js holds an older
non-cyclic variant of `navigatePokemon` that overlay.js overrides when
both files are loaded) -/

/-- `openLargeView` (overlay.js / scripts.js):
`currentPokemonIndex = pokemonList.findIndex(p => p.id === pokemon.id)`. -/
def openLargeView (pokemon : PokemonData) (s : SessionState) : SessionState :=
  { s with currentPokemonIndex := jsFindIndex (fun p => p.id == pokemon.id) s.pokemonList }

/-- `navigatePokemon` (overlay.js): cyclic index update — below 0 wraps
to `length - 1`, at or above `length` wraps to 0. -/
def navigatePokemon (direction : Int) (s : SessionState) : SessionState :=
  let newIndex := s.currentPokemonIndex + direction
  let wrapped :=
    if newIndex < 0 then (s.pokemonList.length : Int) - 1
    else if newIndex ≥ (s.pokemonList.length : Int) then 0
    else newIndex
  { s with currentPokemonIndex := wrapped }

/-- `navigatePokemon` together with the record it then renders:
`renderLargeView(pokemonList[currentPokemonIndex])`, where an
out-of-range index yields `undefined` (`none`). -/
def navigatePokemonView (direction : Int) (s : SessionState) :
    SessionState × Option PokemonData :=
  let t := navigatePokemon direction s
  (t, jsIndex t.pokemonList t.currentPokemonIndex)

/-- The scripts.js variant of `navigatePokemon`: clamped rather than
cyclic — an out-of-range target index leaves the state unchanged. -/
def navigatePokemonClamped (direction : Int) (s : SessionState) : SessionState :=
  let newIndex := s.currentPokemonIndex + direction
  if 0 ≤ newIndex && newIndex < (s.pokemonList.length : Int) then
    { s with currentPokemonIndex := newIndex }
  else s

/-! ## Evolution-chain resolution (api.js) -/

mutual
/-- `processEvolutionChain` (api.js): fetch the link's record and append
it with its `evolution_details`, then recurse into each child in order.
The surrounding `try` means a thrown fetch at this link silently drops
the link and its entire subtree (`[]`), while recursive calls catch
their own failures, so siblings are unaffected. -/
def processEvolutionChain (ds : DataSource) : ChainNode → List EvolutionData
  | .mk speciesId details children =>
    match ds.fetchById speciesId with
    | none => []
    | some p => { pokemon := p, evolutionDetails := details } :: processChildren ds children

/-- The `for (const evolution of chain.evolves_to)` loop: children are
resolved left to right, each appending its whole subtree before the
next sibling starts. -/
def processChildren (ds : DataSource) : ChainList → List EvolutionData
  | .nil => []
  | .cons c rest => processEvolutionChain ds c ++ processChildren ds rest
end

/-- `getEvolutionChain` (api.js): fetch the species; without an
`evolution_chain.url` return `[]`; otherwise fetch the chain tree and
linearize it with `processEvolutionChain`.  Every failure is caught and
produces `[]` instead of propagating. -/
def getEvolutionChain (ds : DataSource) (pokemon : PokemonData) : List EvolutionData :=
  match ds.fetchSpecies pokemon.id with
  | none => []
  | some speciesData =>
    match speciesData.evolutionChainUrl with
    | none => []
    | some url =>
      match ds.fetchEvolutionChain url with
      | none => []
      | some chain => processEvolutionChain ds chain

mutual
/-- Pre-order listing of the species ids of a chain tree (the node
before its children, children in source order) — the reference
linearization used to specify `processEvolutionChain`. -/
def chainSpeciesIds : ChainNode → List Nat
  | .mk speciesId _ children => speciesId :: chainListSpeciesIds children

/-- Pre-order species ids of a child list. -/
def chainListSpeciesIds : ChainList → List Nat
  | .nil => []
  | .cons c rest => chainSpeciesIds c ++ chainListSpeciesIds rest
end

/-! ## Concrete fixtures used by counterexamples and witnesses -/

/-- A shape-valid record with the given id and name. -/
def mkPokemon (n : Nat) (nm : String) : PokemonData :=
  ⟨n, nm, true, true, true⟩

/-- A DataSource whose id endpoint always succeeds. -/
def dsAll : DataSource where
  fetchById := fun id => some (mkPokemon id "pika")
  fetchByName := fun _ => none
  fetchSpecies := fun _ => none
  fetchEvolutionChain := fun _ => none

/-- Fresh kanto session (the initial globals of scripts.js). -/
def sKanto : SessionState :=
  ⟨[], 0, 20, false, 0, false, "kanto", 1, 151⟩

/-- Fresh hoenn session (after `selectRegion('hoenn')`). -/
def sHoenn : SessionState :=
  ⟨[], 0, 20, false, 0, false, "hoenn", 252, 386⟩

/-! ## C1: pagination offset -/

/-- A batch whose fetches all succeed completes without a throw. -/
lemma loadBatch_ok_of_total (ds : DataSource) (h : ∀ id, (ds.fetchById id).isSome) :
    ∀ l : List Nat, (loadBatch ds l).2 = true := by
  intro l
  induction l with
  | nil => rfl
  | cons id rest ih =>
    cases hq : ds.fetchById id with
    | none => have := h id; simp [hq] at this
    | some p => simp [loadBatch, hq, ih]

/-- `loadPokemon` does not touch `limit`. -/
lemma loadPokemon_limit (ds : DataSource) (s : SessionState) :
    (loadPokemon ds s).limit = s.limit := by
  unfold loadPokemon
  dsimp only
  split <;> rfl

/-- `loadPokemon` never decreases `currentOffset`. -/
lemma loadPokemon_offset_mono (ds : DataSource) (s : SessionState) :
    s.currentOffset ≤ (loadPokemon ds s).currentOffset := by
  unfold loadPokemon
  dsimp only
  split <;> simp

/-- A fully successful `loadPokemon` advances the offset by exactly `limit`. -/
lemma loadPokemon_offset_of_total (ds : DataSource) (s : SessionState)
    (h : ∀ id, (ds.fetchById id).isSome) :
    (loadPokemon ds s).currentOffset = s.currentOffset + s.limit := by
  unfold loadPokemon
  dsimp only
  rw [loadBatch_ok_of_total ds h]
  simp

set_option maxRecDepth 8000 in
/-- C1, counterexample: in hoenn (135 ids, page size 20), seven successful
`loadPokemon` calls from offset 0 leave the offset at 140, not at
`min (7·20) 135 = 135` — the offset is never clamped to the region total. -/
theorem claim_C1_counterexample :
    (Nat.iterate (loadPokemon dsAll) 7 sHoenn).currentOffset
      ≠ min (7 * sHoenn.limit) (getRegionPokemonIds sHoenn).length := by
  decide

/-- C1 (amended): `loadPokemon` never decreases `offset`, and after N
successfully completed calls starting from offset 0 the offset equals
N·P — the advance is over id slots and is not clamped to the region's
total id count. -/
theorem claim_C1_amended :
    (∀ (ds : DataSource) (s : SessionState),
        s.currentOffset ≤ (loadPokemon ds s).currentOffset) ∧
    (∀ (ds : DataSource) (s : SessionState) (N : Nat),
        (∀ id, (ds.fetchById id).isSome) → s.currentOffset = 0 →
        (Nat.iterate (loadPokemon ds) N s).currentOffset = N * s.limit) := by
  constructor
  · exact fun ds s => loadPokemon_offset_mono ds s
  · intro ds s N h h0
    have key : ∀ (M : Nat) (t : SessionState),
        (Nat.iterate (loadPokemon ds) M t).currentOffset
          = t.currentOffset + M * t.limit := by
      intro M
      induction M with
      | zero => intro t; simp
      | succ k ih =>
        intro t
        calc (Nat.iterate (loadPokemon ds) (k + 1) t).currentOffset
            = (Nat.iterate (loadPokemon ds) k (loadPokemon ds t)).currentOffset := by
              rw [Function.iterate_succ_apply]
          _ = (loadPokemon ds t).currentOffset + k * (loadPokemon ds t).limit := ih _
          _ = (t.currentOffset + t.limit) + k * t.limit := by
              rw [loadPokemon_offset_of_total ds t h, loadPokemon_limit]
          _ = t.currentOffset + (k + 1) * t.limit := by ring
    rw [key N s, h0]
    ring

/-- C1, witness: two successful hoenn page loads land on offset 2·20. -/
theorem claim_C1_witness :
    (∀ id, (dsAll.fetchById id).isSome) ∧ sHoenn.currentOffset = 0 ∧
    (Nat.iterate (loadPokemon dsAll) 2 sHoenn).currentOffset = 2 * sHoenn.limit :=
  ⟨fun _ => rfl, rfl, claim_C1_amended.2 dsAll sHoenn 2 (fun _ => rfl) rfl⟩

/-! ## C2: exiting search mode -/

/-- A kanto session that has paged twice and accumulated one record. -/
def sAccumulated : SessionState :=
  ⟨[mkPokemon 1 "pika"], 40, 20, false, 0, true, "kanto", 1, 151⟩

set_option maxRecDepth 4000 in
/-- C2, counterexample: with non-empty `loadedRecords`, `resetToDefaultView`
does not leave `loadedRecords` and the offset unchanged — it clears the list,
resets the offset to 0 and reloads the first page (landing on offset 20, not
the previous 40, and on the freshly fetched first page, not the old list). -/
theorem claim_C2_counterexample :
    sAccumulated.pokemonList ≠ [] ∧
    (resetToDefaultView dsAll sAccumulated).currentOffset ≠ sAccumulated.currentOffset := by
  constructor
  · decide
  · decide

/-- C2 (amended): `resetToDefaultView` always returns to `Listing` mode and
performs a fresh reload from offset 0 with cleared `loadedRecords`, also when
`loadedRecords` is non-empty: its resulting list and offset are independent of
the previous `loadedRecords`, offset and mode of the session. -/
theorem claim_C2_amended (ds : DataSource) (s t : SessionState)
    (h1 : s.regionStart = t.regionStart) (h2 : s.regionEnd = t.regionEnd)
    (h3 : s.limit = t.limit) :
    (resetToDefaultView ds s).isInSearchMode = false ∧
    (resetToDefaultView ds s).currentOffset = (resetToDefaultView ds t).currentOffset ∧
    (resetToDefaultView ds s).pokemonList = (resetToDefaultView ds t).pokemonList := by
  unfold resetToDefaultView loadPokemon getRegionPokemonIds
  dsimp only
  rw [h1, h2, h3]
  refine ⟨?_, ?_, ?_⟩ <;> split <;> rfl

/-- C2, witness: a paged, searching session and a fresh session over the same
region reload to the same list and offset. -/
theorem claim_C2_witness :
    sAccumulated.regionStart = sKanto.regionStart ∧
    sAccumulated.regionEnd = sKanto.regionEnd ∧
    sAccumulated.limit = sKanto.limit ∧
    (resetToDefaultView dsAll sAccumulated).isInSearchMode = false ∧
    (resetToDefaultView dsAll sAccumulated).currentOffset
      = (resetToDefaultView dsAll sKanto).currentOffset ∧
    (resetToDefaultView dsAll sAccumulated).pokemonList
      = (resetToDefaultView dsAll sKanto).pokemonList :=
  ⟨rfl, rfl, rfl,
    (claim_C2_amended dsAll sAccumulated sKanto rfl rfl rfl).1,
    (claim_C2_amended dsAll sAccumulated sKanto rfl rfl rfl).2.1,
    (claim_C2_amended dsAll sAccumulated sKanto rfl rfl rfl).2.2⟩

/-! ## C3: opening the large view -/

/-- `jsFindIndex` is `List.findIdx` on the first-match position with `-1`
for a missing element. -/
lemma jsFindIndex_eq_findIdx {α : Type} (pred : α → Bool) (l : List α) :
    jsFindIndex pred l
      = if l.any pred then (l.findIdx pred : Int) else -1 := by
  induction l with
  | nil => rfl
  | cons x rest ih =>
    cases hx : pred x with
    | true => simp [jsFindIndex, hx, List.findIdx_cons]
    | false =>
      by_cases hr : rest.any pred
      · have ih₀ : jsFindIndex pred rest = (rest.findIdx pred : Int) := by
          rw [ih, if_pos hr]
        have hnn : ¬((rest.findIdx pred : Int) < 0) := by omega
        simp [jsFindIndex, hx, List.findIdx_cons, hr, ih₀, hnn]
      · have ih₀ : jsFindIndex pred rest = -1 := by rw [ih, if_neg hr]
        simp [jsFindIndex, hx, hr, ih₀]

/-- Records 5 and 6 loaded; record 7 is absent from the list. -/
def sTwoLoaded : SessionState :=
  ⟨[mkPokemon 5 "e", mkPokemon 6 "f"], 20, 20, false, 0, false, "kanto", 1, 151⟩

/-- C3, counterexample: opening a record whose id occurs nowhere in the active
list sets `currentPokemonIndex` to `findIndex`'s `-1`, not to 0 — from `-1`,
`navigate(+1)` reaches index 0 while from a true index 0 it would reach 1, so
`-1` does not behave as index 0. -/
theorem claim_C3_counterexample :
    sTwoLoaded.pokemonList.all (fun p => p.id != 7) ∧
    (openLargeView (mkPokemon 7 "g") sTwoLoaded).currentPokemonIndex = -1 ∧
    (-1 : Int) ≠ 0 ∧
    (navigatePokemon 1 (openLargeView (mkPokemon 7 "g") sTwoLoaded)).currentPokemonIndex
      = 0 ∧
    (navigatePokemon 1 { sTwoLoaded with currentPokemonIndex := 0 }).currentPokemonIndex
      = 1 := by
  refine ⟨by decide, by decide, by decide, by decide, by decide⟩

/-- C3 (amended): `openLargeView` always locates the record in the session's
`pokemonList` (also while search results are displayed) and sets the current
index to the first position whose id equals the given record's id; when no
such position exists the index becomes `-1`, one slot before the start. -/
theorem claim_C3_amended (rec : PokemonData) (s : SessionState) :
    (openLargeView rec s).currentPokemonIndex
      = if s.pokemonList.any (fun p => p.id == rec.id)
        then (s.pokemonList.findIdx (fun p => p.id == rec.id) : Int)
        else -1 := by
  unfold openLargeView
  exact jsFindIndex_eq_findIdx _ _

/-! ## C4: cyclic navigation (overlay.js) -/

/-- C4: on a non-empty active list with the current index in bounds,
`navigatePokemon` with direction ±1 lands on `(currentIndex + direction)`
modulo the length: below 0 it wraps to the last element, past the end to the
first, the result is always in bounds, and on a single-element list it is a
no-op. -/
theorem claim_C4_navigate (s : SessionState) (d : Int)
    (hd : d = -1 ∨ d = 1)
    (hlen : 1 ≤ s.pokemonList.length)
    (h0 : 0 ≤ s.currentPokemonIndex)
    (h1 : s.currentPokemonIndex < (s.pokemonList.length : Int)) :
    (navigatePokemon d s).currentPokemonIndex
        = (s.currentPokemonIndex + d) % (s.pokemonList.length : Int) ∧
    0 ≤ (navigatePokemon d s).currentPokemonIndex ∧
    (navigatePokemon d s).currentPokemonIndex < (s.pokemonList.length : Int) ∧
    (s.pokemonList.length = 1 →
      (navigatePokemon d s).currentPokemonIndex = s.currentPokemonIndex) := by
  have hL : (0 : Int) < (s.pokemonList.length : Int) := by exact_mod_cast hlen
  have hmodneg : (-1 : Int) % (s.pokemonList.length : Int)
      = (s.pokemonList.length : Int) - 1 := by
    have h₁ : (-1 : Int) % (s.pokemonList.length : Int)
        = (-1 + (s.pokemonList.length : Int) * 1) % (s.pokemonList.length : Int) :=
      (Int.add_mul_emod_self_left (-1) (s.pokemonList.length : Int) 1).symm
    have h₂ : (-1 + (s.pokemonList.length : Int) * 1)
        = (s.pokemonList.length : Int) - 1 := by ring
    rw [h₁, h₂, Int.emod_eq_of_lt (by omega) (by omega)]
  have hmod : (navigatePokemon d s).currentPokemonIndex
      = (s.currentPokemonIndex + d) % (s.pokemonList.length : Int) := by
    unfold navigatePokemon
    dsimp only
    rcases hd with rfl | rfl
    · by_cases hneg : s.currentPokemonIndex + -1 < 0
      · have hi : s.currentPokemonIndex = 0 := by omega
        rw [if_pos hneg, hi]
        rw [zero_add, hmodneg]
      · rw [if_neg hneg, if_neg (by omega)]
        rw [Int.emod_eq_of_lt (by omega) (by omega)]
    · rw [if_neg (by omega)]
      by_cases hge : s.currentPokemonIndex + 1 ≥ (s.pokemonList.length : Int)
      · have hi : s.currentPokemonIndex + 1 = (s.pokemonList.length : Int) := by omega
        rw [if_pos hge, hi, Int.emod_self]
      · rw [if_neg hge, Int.emod_eq_of_lt (by omega) (by omega)]
  refine ⟨hmod, ?_, ?_, ?_⟩
  · rw [hmod]; exact Int.emod_nonneg _ (by omega)
  · rw [hmod]; exact Int.emod_lt_of_pos _ hL
  · intro hone
    rw [hmod, hone]
    have hi : s.currentPokemonIndex = 0 := by
      rw [hone] at h1; omega
    simp [hi]

/-- Three records loaded, large view on the first. -/
def sThreeLoaded : SessionState :=
  ⟨[mkPokemon 1 "a", mkPokemon 2 "b", mkPokemon 3 "c"], 20, 20, false, 0, false,
    "kanto", 1, 151⟩

/-- C4, witness: from index 0 of a three-element list, `navigate(-1)` wraps to
the last index 2. -/
theorem claim_C4_witness :
    ((-1 : Int) = -1 ∨ (-1 : Int) = 1) ∧
    1 ≤ sThreeLoaded.pokemonList.length ∧
    (navigatePokemon (-1) sThreeLoaded).currentPokemonIndex = 2 :=
  ⟨Or.inl rfl, by decide,
    ((claim_C4_navigate sThreeLoaded (-1) (Or.inl rfl) (by decide) (by decide)
      (by decide)).1).trans (by decide)⟩

/-! ## C10: navigation on an empty list -/

/-- C10: with an empty `pokemonList` (reachable with the current index 0 from
initialization or `-1` from a missing `findIndex`), the cyclic
`navigatePokemon` still computes a target index — 0 for direction +1 and
`length − 1 = −1` for direction −1 — and the unguarded `pokemonList[index]`
dereference yields no record. -/
theorem claim_C10_empty_navigate (s : SessionState)
    (hempty : s.pokemonList = [])
    (hlo : -1 ≤ s.currentPokemonIndex) (hhi : s.currentPokemonIndex ≤ 0) :
    (navigatePokemonView 1 s).1.currentPokemonIndex = 0 ∧
    (navigatePokemonView (-1) s).1.currentPokemonIndex = -1 ∧
    ((s.pokemonList.length : Int) - 1 = -1) ∧
    (navigatePokemonView 1 s).2 = none ∧
    (navigatePokemonView (-1) s).2 = none := by
  have hi : s.currentPokemonIndex = -1 ∨ s.currentPokemonIndex = 0 := by omega
  unfold navigatePokemonView navigatePokemon jsIndex
  rcases hi with hi | hi <;>
    simp [hempty, hi]

/-- An empty session with the large-view index still at its initial 0. -/
def sEmptyList : SessionState :=
  ⟨[], 0, 20, false, 0, false, "kanto", 1, 151⟩

/-- C10, witness: on the empty fresh session, both directions compute their
wrap target and dereference to no record. -/
theorem claim_C10_witness :
    sEmptyList.pokemonList = [] ∧
    (navigatePokemonView 1 sEmptyList).1.currentPokemonIndex = 0 ∧
    (navigatePokemonView (-1) sEmptyList).1.currentPokemonIndex = -1 ∧
    (navigatePokemonView 1 sEmptyList).2 = none ∧
    (navigatePokemonView (-1) sEmptyList).2 = none :=
  ⟨rfl,
    (claim_C10_empty_navigate sEmptyList rfl (by decide) (by decide)).1,
    (claim_C10_empty_navigate sEmptyList rfl (by decide) (by decide)).2.1,
    (claim_C10_empty_navigate sEmptyList rfl (by decide) (by decide)).2.2.2.1,
    (claim_C10_empty_navigate sEmptyList rfl (by decide) (by decide)).2.2.2.2⟩

/-! ## C5: numeric query outside the region -/

/-- C5: a purely numeric (and therefore valid) query whose parsed id lies
outside the active region's bounds makes the search fail with the
out-of-region error carrying the region's valid id range, and no DataSource
call is issued. -/
theorem claim_C5_numeric_out_of_region (ds : DataSource) (s : SessionState)
    (input : String)
    (hnum : isPokemonId (jsTrim input) = true)
    (hvalid : isValidSearchTerm (jsTrim input) = true)
    (hout : isPokemonInCurrentRegion s (sanitizePokemonId (jsTrim input)) = false) :
    handleSearch ds s input
      = (.failed (.notInRegion s.regionStart s.regionEnd), []) := by
  have hne : (jsTrim input == "") = false := by
    unfold isValidSearchTerm at hvalid
    simp only [Bool.and_eq_true, bne_iff_ne] at hvalid
    simpa using hvalid.1.1
  unfold handleSearch searchPokemonByTerm searchPokemonById
  simp [hne, hvalid, hnum, hout]

/-- C5, witness: searching "200" in kanto (ids 1–151) fails with the
out-of-region error naming 1–151 and makes zero DataSource calls. -/
theorem claim_C5_witness :
    isPokemonId (jsTrim "200") = true ∧
    isValidSearchTerm (jsTrim "200") = true ∧
    isPokemonInCurrentRegion sKanto (sanitizePokemonId (jsTrim "200")) = false ∧
    handleSearch dsAll sKanto "200" = (.failed (.notInRegion 1 151), []) :=
  ⟨by decide, by decide, by decide,
    claim_C5_numeric_out_of_region dsAll sKanto "200" (by decide) (by decide) (by decide)⟩

/-! ## C7: query validation -/

/-- C7, counterexample: the empty query does not fail with a validation
error — `handleSearch` branches to `resetToDefaultView` (a fresh reload of
the listing) before `isValidSearchTerm` is ever consulted. -/
theorem claim_C7_counterexample :
    (handleSearch dsAll sKanto "").1 = SearchResult.reset ∧
    SearchResult.reset ≠ SearchResult.invalid := by
  exact ⟨rfl, by decide⟩

/-- C7 (amended): a query that is non-empty after trimming and contains any
character outside letters, digits, whitespace (the regex class `\s`, not just
the space character) and hyphen fails validation with the user-facing modal
before any DataSource call; an empty or whitespace-only query instead resets
the view to the default listing. -/
theorem claim_C7_amended (ds : DataSource) (s : SessionState) (input : String)
    (hne : jsTrim input ≠ "")
    (hbad : (jsTrim input).data.any (fun c => !(allowedSearchChar c)) = true) :
    handleSearch ds s input = (.invalid, []) := by
  have hinvalid : isValidSearchTerm (jsTrim input) = false := by
    unfold isValidSearchTerm
    simp only [List.any_eq_true, Bool.not_eq_true'] at hbad
    obtain ⟨c, hc, hcbad⟩ := hbad
    have : (jsTrim input).data.all allowedSearchChar = false := by
      simp only [List.all_eq_false]
      exact ⟨c, hc, by simp [hcbad]⟩
    simp [this]
  unfold handleSearch
  rw [if_neg (by simpa using hne), hinvalid]
  rfl

/-- C7, witness: the query "ab!" is rejected by validation with no
DataSource call. -/
theorem claim_C7_witness :
    jsTrim "ab!" ≠ "" ∧
    ((jsTrim "ab!").data.any (fun c => !(allowedSearchChar c)) = true) ∧
    handleSearch dsAll sKanto "ab!" = (.invalid, []) :=
  ⟨by decide, by decide, claim_C7_amended dsAll sKanto "ab!" (by decide) (by decide)⟩

/-! ## C6: the fuzzy scan -/

/-- The scan visits every id in order — recording one `byId` call per id,
failures included — and keeps exactly the per-id picks. -/
lemma fuzzyScan_eq (ds : DataSource) (term : String) :
    ∀ ids : List Nat,
      fuzzyScan ds term ids
        = (ids.filterMap (fuzzyPick ds term), ids.map DSCall.byId) := by
  intro ids
  induction ids with
  | nil => rfl
  | cons id rest ih =>
    cases hq : ds.fetchById id with
    | none => simp [fuzzyScan, fuzzyPick, hq, ih]
    | some p =>
      by_cases hm : jsIncludes (jsToLower p.name) (jsToLower term)
      · simp [fuzzyScan, fuzzyPick, hq, hm, ih]
      · simp [fuzzyScan, fuzzyPick, hq, hm, ih]

/-- Under the DataSource contract that the id endpoint returns the record
with the requested id, the ids of the kept records form a sublist of the
scanned ids. -/
lemma fuzzyPick_ids_sublist (ds : DataSource) (term : String)
    (hctr : ∀ id p, ds.fetchById id = some p → p.id = id) :
    ∀ ids : List Nat,
      ((ids.filterMap (fuzzyPick ds term)).map (fun p => p.id)).Sublist ids := by
  intro ids
  induction ids with
  | nil => simp
  | cons id rest ih =>
    rw [List.filterMap_cons]
    cases hf : fuzzyPick ds term id with
    | none => exact List.Sublist.cons _ ih
    | some p =>
      have hpid : p.id = id := by
        unfold fuzzyPick at hf
        cases hq : ds.fetchById id with
        | none =>
          rw [hq] at hf
          exact Option.noConfusion hf
        | some q =>
          rw [hq] at hf
          dsimp only at hf
          by_cases hm : jsIncludes (jsToLower q.name) (jsToLower term)
          · rw [if_pos hm] at hf
            injection hf with h
            rw [← h]
            exact hctr id q hq
          · rw [if_neg hm] at hf
            exact Option.noConfusion hf
      rw [List.map_cons, hpid]
      exact List.Sublist.cons₂ _ ih

/-- C6: `searchPokemonByFuzzyName` over the active region's id sequence
scans every id in ascending order (issuing exactly one fetch per id, also
past per-id failures, which are skipped), keeps exactly the records whose
lower-cased name contains the lower-cased term, fails with the not-found
error carrying the query term if and only if no record matched, and — when
the DataSource returns records carrying the requested id — the kept records
are in strictly ascending id order. -/
theorem claim_C6_fuzzy_scan (ds : DataSource) (s : SessionState) (term : String) :
    (searchPokemonByFuzzyName ds term (getRegionPokemonIds s)
      = (if (getRegionPokemonIds s).filterMap (fuzzyPick ds term) = []
         then .error (.noMatches term)
         else .ok ((getRegionPokemonIds s).filterMap (fuzzyPick ds term)),
        (getRegionPokemonIds s).map DSCall.byId)) ∧
    ((∀ id p, ds.fetchById id = some p → p.id = id) →
      ((getRegionPokemonIds s).filterMap (fuzzyPick ds term)).Pairwise
        (fun a b => a.id < b.id)) := by
  constructor
  · unfold searchPokemonByFuzzyName
    rw [fuzzyScan_eq]
    dsimp only
    by_cases hz : (getRegionPokemonIds s).filterMap (fuzzyPick ds term) = []
    · have hlen : ((getRegionPokemonIds s).filterMap (fuzzyPick ds term)).length = 0 := by
        rw [hz]
        rfl
      rw [if_pos hlen, if_pos hz]
    · have hlen : ¬((getRegionPokemonIds s).filterMap (fuzzyPick ds term)).length = 0 := by
        simpa [List.length_eq_zero] using hz
      rw [if_neg hlen, if_neg hz]
  · intro hctr
    have hsub := fuzzyPick_ids_sublist ds term hctr (getRegionPokemonIds s)
    have hasc : (getRegionPokemonIds s).Pairwise (· < ·) := by
      unfold getRegionPokemonIds
      exact List.pairwise_lt_range' _ _
    have := hasc.sublist hsub
    exact List.pairwise_map.mp this

/-- C6, witness: with an id endpoint honouring the id contract, the kanto
scan's kept records are in strictly ascending id order. -/
theorem claim_C6_witness :
    (∀ id p, dsAll.fetchById id = some p → p.id = id) ∧
    ((getRegionPokemonIds sKanto).filterMap (fuzzyPick dsAll "char")).Pairwise
      (fun a b => a.id < b.id) :=
  ⟨fun id p h => by injection h with h₂; rw [← h₂]; rfl,
    (claim_C6_fuzzy_scan dsAll sKanto "char").2
      (fun id p h => by injection h with h₂; rw [← h₂]; rfl)⟩

/-! ## C8: evolution resolution under per-node fetch failures -/

mutual
/-- Removing fetch successes from a DataSource only removes entries from the
linearized chain: the rest survive in order. -/
theorem processEvolutionChain_sublist (ds dt : DataSource)
    (h : ∀ id, ds.fetchById id = none ∨ ds.fetchById id = dt.fetchById id) :
    ∀ t : ChainNode,
      (processEvolutionChain ds t).Sublist (processEvolutionChain dt t)
  | .mk sid det children => by
    cases hq : ds.fetchById sid with
    | none =>
      have hnil : processEvolutionChain ds (.mk sid det children) = [] := by
        simp [processEvolutionChain, hq]
      rw [hnil]
      exact List.nil_sublist _
    | some p =>
      rcases h sid with h₀ | he
      · rw [h₀] at hq
        exact Option.noConfusion hq
      · have hdt : dt.fetchById sid = some p := by
          rw [← he]
          exact hq
        simp only [processEvolutionChain, hq, hdt]
        exact List.Sublist.cons₂ _ (processChildren_sublist ds dt h children)

/-- Sibling version of `processEvolutionChain_sublist`. -/
theorem processChildren_sublist (ds dt : DataSource)
    (h : ∀ id, ds.fetchById id = none ∨ ds.fetchById id = dt.fetchById id) :
    ∀ l : ChainList,
      (processChildren ds l).Sublist (processChildren dt l)
  | .nil => by
    simp [processChildren]
  | .cons c rest => by
    simp only [processChildren]
    exact List.Sublist.append (processEvolutionChain_sublist ds dt h c)
      (processChildren_sublist ds dt h rest)
end

/-- C8: a fetch failure at a node makes the node contribute an empty
linearization — its whole subtree is aborted silently; a DataSource with
additional per-node failures yields a sublist of the fuller resolution, so
already-processed sibling subtrees are retained and a partial chain is
returned instead of an error; and when a node itself resolves, its two
sibling subtrees contribute independently and in order. -/
theorem claim_C8_partial_failure :
    (∀ (ds : DataSource) (sid : Nat) (det : List Nat) (ch : ChainList),
        ds.fetchById sid = none →
        processEvolutionChain ds (.mk sid det ch) = []) ∧
    (∀ ds dt : DataSource,
        (∀ id, ds.fetchById id = none ∨ ds.fetchById id = dt.fetchById id) →
        ∀ t : ChainNode,
          (processEvolutionChain ds t).Sublist (processEvolutionChain dt t)) ∧
    (∀ (ds : DataSource) (sid : Nat) (det : List Nat) (a b : ChainNode)
        (p : PokemonData),
        ds.fetchById sid = some p →
        processEvolutionChain ds (.mk sid det (.cons a (.cons b .nil)))
          = ⟨p, det⟩ :: (processEvolutionChain ds a ++ processEvolutionChain ds b)) := by
  refine ⟨?_, ?_, ?_⟩
  · intro ds sid det ch h
    simp [processEvolutionChain, h]
  · intro ds dt h t
    exact processEvolutionChain_sublist ds dt h t
  · intro ds sid det a b p h
    simp [processEvolutionChain, processChildren, h]

/-- `dsAll` with the fetch for id 2 failing. -/
def dsFail2 : DataSource where
  fetchById := fun id => if id == 2 then none else dsAll.fetchById id
  fetchByName := fun _ => none
  fetchSpecies := fun _ => none
  fetchEvolutionChain := fun _ => none

/-- A root with two childless child links (ids 1; 2, 3). -/
def chainFork : ChainNode :=
  .mk 1 [] (.cons (.mk 2 [] .nil) (.cons (.mk 3 [] .nil) .nil))

/-- C8, witness: with id 2 failing, the node for id 2 contributes nothing and
the overall resolution of the forked chain is a sublist of the full one. -/
theorem claim_C8_witness :
    (dsFail2.fetchById 2 = none ∧
      processEvolutionChain dsFail2 (.mk 2 [] (.cons (.mk 3 [] .nil) .nil)) = []) ∧
    ((∀ id, dsFail2.fetchById id = none ∨ dsFail2.fetchById id = dsAll.fetchById id) ∧
      (processEvolutionChain dsFail2 chainFork).Sublist
        (processEvolutionChain dsAll chainFork)) := by
  have hweak : ∀ id, dsFail2.fetchById id = none ∨ dsFail2.fetchById id = dsAll.fetchById id := by
    intro id
    by_cases h : id = 2
    · subst h
      exact Or.inl rfl
    · right
      simp [dsFail2, h]
  exact ⟨⟨rfl, claim_C8_partial_failure.1 dsFail2 2 [] _ rfl⟩,
    hweak, claim_C8_partial_failure.2.1 dsFail2 dsAll hweak chainFork⟩

/-! ## C9: shape of resolved evolution chains -/

mutual
/-- With a total, id-honouring DataSource the linearized chain lists exactly
the pre-order species ids of the source tree. -/
theorem processEvolutionChain_ids (ds : DataSource)
    (h1 : ∀ id, (ds.fetchById id).isSome)
    (h2 : ∀ id p, ds.fetchById id = some p → p.id = id) :
    ∀ t : ChainNode,
      (processEvolutionChain ds t).map (fun e => e.pokemon.id) = chainSpeciesIds t
  | .mk sid det children => by
    cases hq : ds.fetchById sid with
    | none =>
      have hs := h1 sid
      rw [hq] at hs
      exact absurd hs (by simp)
    | some p =>
      have hpid : p.id = sid := h2 sid p hq
      simp only [processEvolutionChain, hq, chainSpeciesIds, List.map_cons]
      rw [hpid, processChildren_ids ds h1 h2 children]

/-- Sibling version of `processEvolutionChain_ids`. -/
theorem processChildren_ids (ds : DataSource)
    (h1 : ∀ id, (ds.fetchById id).isSome)
    (h2 : ∀ id p, ds.fetchById id = some p → p.id = id) :
    ∀ l : ChainList,
      (processChildren ds l).map (fun e => e.pokemon.id) = chainListSpeciesIds l
  | .nil => by
    simp [processChildren, chainListSpeciesIds]
  | .cons c rest => by
    simp only [processChildren, chainListSpeciesIds, List.map_append]
    rw [processEvolutionChain_ids ds h1 h2 c, processChildren_ids ds h1 h2 rest]
end

/-- C9: a species without an evolution-chain reference resolves to the empty
chain; a single-node childless tree resolves to a chain of length exactly 1;
a three-stage linear tree resolves to the three records in root-to-leaf
order; and in general the linearization follows the pre-order traversal of
the source tree. -/
theorem claim_C9_evolution_chain_shape :
    (∀ (ds : DataSource) (pk : PokemonData),
        ds.fetchSpecies pk.id = some ⟨none⟩ →
        getEvolutionChain ds pk = []) ∧
    (∀ (ds : DataSource) (pk : PokemonData) (url : String) (sid : Nat)
        (det : List Nat) (p : PokemonData),
        ds.fetchSpecies pk.id = some ⟨some url⟩ →
        ds.fetchEvolutionChain url = some (.mk sid det .nil) →
        ds.fetchById sid = some p →
        getEvolutionChain ds pk = [⟨p, det⟩]) ∧
    (∀ (ds : DataSource) (pk : PokemonData) (url : String) (sa sb sc : Nat)
        (da db dc : List Nat) (pa pb pc : PokemonData),
        ds.fetchSpecies pk.id = some ⟨some url⟩ →
        ds.fetchEvolutionChain url
          = some (.mk sa da (.cons (.mk sb db (.cons (.mk sc dc .nil) .nil)) .nil)) →
        ds.fetchById sa = some pa → ds.fetchById sb = some pb →
        ds.fetchById sc = some pc →
        getEvolutionChain ds pk = [⟨pa, da⟩, ⟨pb, db⟩, ⟨pc, dc⟩]) ∧
    (∀ ds : DataSource,
        (∀ id, (ds.fetchById id).isSome) →
        (∀ id p, ds.fetchById id = some p → p.id = id) →
        ∀ t : ChainNode,
          (processEvolutionChain ds t).map (fun e => e.pokemon.id)
            = chainSpeciesIds t) := by
  refine ⟨?_, ?_, ?_, ?_⟩
  · intro ds pk hsp
    simp [getEvolutionChain, hsp]
  · intro ds pk url sid det p hsp hch hid
    simp [getEvolutionChain, hsp, hch, processEvolutionChain, processChildren, hid]
  · intro ds pk url sa sb sc da db dc pa pb pc hsp hch ha hb hc
    simp [getEvolutionChain, hsp, hch, processEvolutionChain, processChildren, ha, hb, hc]
  · intro ds h1 h2 t
    exact processEvolutionChain_ids ds h1 h2 t

/-- A three-stage linear chain tree 1 → 2 → 3 with distinct detail payloads. -/
def chainLinear : ChainNode :=
  .mk 1 [5] (.cons (.mk 2 [6] (.cons (.mk 3 [7] .nil) .nil)) .nil)

/-- A DataSource serving the species of id 1 with a chain URL and the linear
three-stage tree behind it. -/
def dsEvo : DataSource where
  fetchById := fun id => some (mkPokemon id "pika")
  fetchByName := fun _ => none
  fetchSpecies := fun id => if id == 1 then some ⟨some "chainUrl"⟩ else some ⟨none⟩
  fetchEvolutionChain := fun _ => some chainLinear

/-- C9, witness: resolving record 1 against the linear three-stage tree
yields the three records in root-to-leaf order. -/
theorem claim_C9_witness :
    dsEvo.fetchSpecies (mkPokemon 1 "pika").id = some ⟨some "chainUrl"⟩ ∧
    dsEvo.fetchEvolutionChain "chainUrl"
      = some (.mk 1 [5] (.cons (.mk 2 [6] (.cons (.mk 3 [7] .nil) .nil)) .nil)) ∧
    getEvolutionChain dsEvo (mkPokemon 1 "pika")
      = [⟨mkPokemon 1 "pika", [5]⟩, ⟨mkPokemon 2 "pika", [6]⟩,
         ⟨mkPokemon 3 "pika", [7]⟩] :=
  ⟨rfl, rfl,
    claim_C9_evolution_chain_shape.2.2.1 dsEvo (mkPokemon 1 "pika") "chainUrl"
      1 2 3 [5] [6] [7] (mkPokemon 1 "pika") (mkPokemon 2 "pika") (mkPokemon 3 "pika")
      rfl rfl rfl rfl rfl⟩
